import Mathlib

/-!
Shallow embedding of the Arduino oscillometric blood-pressure monitor
(`automatic_bp_cuff.ino`) and verification of the specified properties.

Modelling conventions:
* `float` values (pressures, oscillometric voltages, amplitudes) are
  embedded as `ℚ`; the sketch only adds, subtracts, halves, compares and
  takes absolute values, so the algorithmic content is preserved exactly.
* `millis()` values are natural numbers; the AVR `unsigned long` timers are
  reduced modulo 2^32 and the AVR `unsigned int` pulse timestamps modulo
  2^16, exactly as the 16-bit assignments in the source truncate them.
* `numPeaks` is kept as a plain `ℕ`: a measurement cycle performs at most
  900 samples, so the counter stays far below 2^16.
* The fixed-size arrays are embedded as total functions `ℕ → ℚ` (the dead
  sample buffers) and as an append-only list (`readings`, which the sketch
  writes at index `secondCounter`, always the number of windows stored).
-/

namespace BPCuff

/-! ## Constants (from the source header) -/

def SAMPLE_RATE : ℕ := 30

def WINDOW_SIZE : ℕ := 30

def TOTAL_SECONDS : ℕ := 30

def VOLTS_TO_MMHG : ℚ := 50

def INITIAL_DELAY : ℕ := 1000

def SAMPLE_INTERVAL : ℕ := 1000 / SAMPLE_RATE

/-- Modulus of the AVR `unsigned int` type (16 bits). -/
def UINT_MOD : ℕ := 65536

/-- Modulus of the AVR `unsigned long` type (32 bits). -/
def ULONG_MOD : ℕ := 4294967296

/-! ## Data model -/

/-- `struct BPReading { float amplitude; float pressure; }`. -/
structure BPReading where
  amplitude : ℚ
  pressure : ℚ
deriving DecidableEq

/-- Array read `readings[i]` (all reads in the sketch are in range). -/
def readAt (l : List BPReading) (i : ℕ) : BPReading :=
  l.getD i ⟨0, 0⟩

/-! ## Envelope search (`findPressureAtAmplitude`) -/

/-- The body of the `for` loops in `findPressureAtAmplitude`: fold the
closest-difference tracking over the scanned index list, carrying
`(closestDifference, closestIndex)`. -/
def searchLoop (amps : ℕ → ℚ) (target : ℚ) : List ℕ → ℚ × ℕ → ℚ × ℕ
  | [], best => best
  | i :: rest, best =>
    let diff := |amps i - target|
    if diff < best.1 then searchLoop amps target rest (diff, i)
    else searchLoop amps target rest best

/-- Scan order of the backward loop `for (i = maxAmplitudeIndex; i >= 0; i--)`. -/
def backwardIndices (maxAmplitudeIndex : ℕ) : List ℕ :=
  (List.range (maxAmplitudeIndex + 1)).reverse

/-- Scan order of the forward loop `for (i = maxAmplitudeIndex; i < TOTAL_SECONDS; i++)`. -/
def forwardIndices (maxAmplitudeIndex : ℕ) : List ℕ :=
  List.range' maxAmplitudeIndex (TOTAL_SECONDS - maxAmplitudeIndex)

/-- The scanned index list of `findPressureAtAmplitude`. -/
def scanIndices (maxAmplitudeIndex : ℕ) (searchBackward : Bool) : List ℕ :=
  if searchBackward then backwardIndices maxAmplitudeIndex else forwardIndices maxAmplitudeIndex

/-- The index held in `closestIndex` when the loop finishes
(initialised to `maxAmplitudeIndex` with `closestDifference = 999`). -/
def bestIndex (amps : ℕ → ℚ) (maxAmplitudeIndex : ℕ) (target : ℚ) (searchBackward : Bool) : ℕ :=
  (searchLoop amps target (scanIndices maxAmplitudeIndex searchBackward) (999, maxAmplitudeIndex)).2

/-- `findPressureAtAmplitude(targetAmplitude, searchBackward)`:
returns `readings[closestIndex].pressure`. -/
def findPressureAtAmplitude (readings : ℕ → BPReading) (maxAmplitudeIndex : ℕ)
    (target : ℚ) (searchBackward : Bool) : ℚ :=
  (readings (bestIndex (fun i => (readings i).amplitude) maxAmplitudeIndex target searchBackward)).pressure

/-! ## Heart rate -/

/-- `float dt = (pulseEnd - pulseStart) * 0.001;` — the subtraction is
performed on AVR `unsigned int`, i.e. modulo 2^16, then scaled to seconds. -/
def hrDt (pulseStart pulseEnd : ℕ) : ℚ :=
  (((pulseEnd % UINT_MOD + UINT_MOD - pulseStart % UINT_MOD) % UINT_MOD : ℕ) : ℚ) / 1000

/-- The heart-rate result of `calculateBloodPressure`: the sketch prints
`60.0 / dt` when `dt > 0` and otherwise reports nothing (its companion
version prints "N/A (insufficient peak timing)"), modelled as `Option`. -/
def heartRate (pulseStart pulseEnd : ℕ) : Option ℚ :=
  let dt := hrDt pulseStart pulseEnd
  if 0 < dt then some (60 / dt) else none

/-- Final results assembled by `calculateBloodPressure`. -/
structure BPResults where
  map : ℚ
  systolic : ℚ
  diastolic : ℚ
  heartRate : Option ℚ
deriving DecidableEq

/-- `calculateBloodPressure()`, reading the globals it uses as arguments. -/
def calculateBloodPressure (readings : ℕ → BPReading) (maxAmplitude : ℚ)
    (maxAmplitudeIndex : ℕ) (pulseStart pulseEnd : ℕ) : BPResults :=
  { map := (readings maxAmplitudeIndex).pressure
    systolic := findPressureAtAmplitude readings maxAmplitudeIndex (0.55 * maxAmplitude) true
    diastolic := findPressureAtAmplitude readings maxAmplitudeIndex (0.75 * maxAmplitude) false
    heartRate := heartRate pulseStart pulseEnd }

/-! ## Peak detector -/

inductive OscillationState where
  | RISING_STATE
  | FALLING_STATE
deriving DecidableEq

structure PeakState where
  oscillationState : OscillationState
  prevOscillometric : ℚ
  numPeaks : ℕ
  pulseStart : ℕ
  pulseEnd : ℕ
deriving DecidableEq

/-- Initial values of the heart-rate globals. -/
def initPeakState : PeakState :=
  { oscillationState := OscillationState.FALLING_STATE
    prevOscillometric := 0
    numPeaks := 0
    pulseStart := 0
    pulseEnd := 0 }

/-- The peak-detection block of `loop()` (executed once per accepted sample):
slope-change detection, peak counting, and the 16-bit timestamp captures of
peaks 15 and 16, followed by `prevOscillometric = oscillometricValue`. -/
def peakStep (p : PeakState) (osc : ℚ) (now : ℕ) : PeakState :=
  let p1 :=
    match p.oscillationState with
    | OscillationState.RISING_STATE =>
      if p.prevOscillometric > osc then
        { p with
          oscillationState := OscillationState.FALLING_STATE
          numPeaks := p.numPeaks + 1
          pulseStart := if p.numPeaks + 1 = 15 then now % UINT_MOD else p.pulseStart
          pulseEnd := if p.numPeaks + 1 = 16 then now % UINT_MOD else p.pulseEnd }
      else p
    | OscillationState.FALLING_STATE =>
      if p.prevOscillometric < osc then
        { p with oscillationState := OscillationState.RISING_STATE }
      else p
  { p1 with prevOscillometric := osc }

/-! ## Window aggregator -/

/-- The per-window accumulator globals: `maxVal`, `minVal`, `maxPressure`,
`minPressure` and the sample counter `bufferIndex`. -/
structure AggState where
  maxVal : ℚ
  minVal : ℚ
  maxPressure : ℚ
  minPressure : ℚ
  bufferIndex : ℕ
deriving DecidableEq

/-- Initial values of the accumulator globals. -/
def initAgg : AggState :=
  { maxVal := -999, minVal := 999, maxPressure := 0, minPressure := 0, bufferIndex := 0 }

/-- The per-sample min/max tracking of `loop()` followed by `bufferIndex++`. -/
def aggSample (a : AggState) (pressure osc : ℚ) : AggState :=
  let a1 := if osc > a.maxVal then { a with maxVal := osc, maxPressure := pressure } else a
  let a2 := if osc < a1.minVal then { a1 with minVal := osc, minPressure := pressure } else a1
  { a2 with bufferIndex := a2.bufferIndex + 1 }

/-- The window reset in `loop()`:
`bufferIndex = 0; maxVal = -999; minVal = 999;` (the pressures are NOT reset). -/
def resetAgg (a : AggState) : AggState :=
  { a with bufferIndex := 0, maxVal := -999, minVal := 999 }

/-- The Reading built on window completion:
`amplitude = maxVal - minVal`, `pressure = (maxPressure + minPressure) / 2`. -/
def emitReading (a : AggState) : BPReading :=
  { amplitude := a.maxVal - a.minVal, pressure := (a.maxPressure + a.minPressure) / 2 }

/-! ## Reading store -/

/-- The running maximum-amplitude tracking globals together with `secondCounter`. -/
structure MaxTrack where
  maxAmplitude : ℚ
  maxAmplitudeIndex : ℕ
  secondCounter : ℕ
deriving DecidableEq

/-- `if (peakToPeak > maxAmplitude && secondCounter > 0) { ... }` followed by
`secondCounter++`. -/
def trackStep (t : MaxTrack) (amp : ℚ) : MaxTrack :=
  if amp > t.maxAmplitude ∧ t.secondCounter > 0 then
    { maxAmplitude := amp, maxAmplitudeIndex := t.secondCounter, secondCounter := t.secondCounter + 1 }
  else
    { t with secondCounter := t.secondCounter + 1 }

def trackRun (t : MaxTrack) (amps : List ℚ) : MaxTrack :=
  amps.foldl trackStep t

/-- The Reading Store: the filled prefix of `readings[]` plus the
maximum-amplitude tracking scalars. -/
structure StoreState where
  readings : List BPReading
  maxAmplitude : ℚ
  maxAmplitudeIndex : ℕ
  secondCounter : ℕ
deriving DecidableEq

def initStore : StoreState :=
  { readings := [], maxAmplitude := 0, maxAmplitudeIndex := 0, secondCounter := 0 }

/-- Storing a completed window:
`readings[secondCounter] = reading`, the guarded maximum update, `secondCounter++`. -/
def appendReading (st : StoreState) (r : BPReading) : StoreState :=
  let t := trackStep ⟨st.maxAmplitude, st.maxAmplitudeIndex, st.secondCounter⟩ r.amplitude
  { readings := st.readings ++ [r]
    maxAmplitude := t.maxAmplitude
    maxAmplitudeIndex := t.maxAmplitudeIndex
    secondCounter := t.secondCounter }

/-- One accepted sample of the `PROCESSING_SIGNAL` branch, restricted to the
aggregator and the store (lines 164-202 of the sketch): min/max tracking,
`bufferIndex++`, and on `bufferIndex >= WINDOW_SIZE` the emission of the
window Reading followed by the window reset. -/
def sampleStep (s : AggState × StoreState) (pressure osc : ℚ) : AggState × StoreState :=
  let a := aggSample s.1 pressure osc
  if WINDOW_SIZE ≤ a.bufferIndex then
    (resetAgg a, appendReading s.2 (emitReading a))
  else
    (a, s.2)

def runSamples (s : AggState × StoreState) (samples : List (ℚ × ℚ)) : AggState × StoreState :=
  samples.foldl (fun st pr => sampleStep st pr.1 pr.2) s

/-- Aggregating a whole sample list without window emission. -/
def aggWindowAll (a : AggState) (samples : List (ℚ × ℚ)) : AggState :=
  samples.foldl (fun s pr => aggSample s pr.1 pr.2) a

/-- Processing one complete window: aggregate its samples, emit the Reading,
reset the accumulator. -/
def processWindow (s : AggState × StoreState) (w : List (ℚ × ℚ)) : AggState × StoreState :=
  let a := aggWindowAll s.1 w
  (resetAgg a, appendReading s.2 (emitReading a))

/-- The peak-to-peak amplitude the sketch computes for one window processed
from a freshly reset accumulator. -/
def windowAmplitude (w : List (ℚ × ℚ)) : ℚ :=
  (aggWindowAll initAgg w).maxVal - (aggWindowAll initAgg w).minVal

/-! ## Acquisition state machine -/

inductive State where
  | WAITING_FOR_SIGNAL
  | DELAY_AFTER_THRESHOLD
  | PROCESSING_SIGNAL
  | COMPLETE
deriving DecidableEq

/-- The whole global state of the sketch. -/
structure MonitorState where
  pumpOn : Bool
  thresholdReached : Bool
  currentState : State
  stateTimer : ℕ
  sampleTimer : ℕ
  peak : PeakState
  agg : AggState
  store : StoreState
  pressureBuffer : ℕ → ℚ
  oscillometricBuffer : ℕ → ℚ
  bpCalcCount : ℕ
  bpResults : Option BPResults

def initMonitor : MonitorState :=
  { pumpOn := false
    thresholdReached := false
    currentState := State.WAITING_FOR_SIGNAL
    stateTimer := 0
    sampleTimer := 0
    peak := initPeakState
    agg := initAgg
    store := initStore
    pressureBuffer := fun _ => 0
    oscillometricBuffer := fun _ => 0
    bpCalcCount := 0
    bpResults := none }

/-- One `loop()` call's inputs: the digital button read, the three analog
reads and the current `millis()` value. -/
structure LoopInput where
  buttonHigh : Bool
  inaRead : ℕ
  pressureRead : ℕ
  oscilloRead : ℕ
  now : ℕ

/-- The pump-control block at the top of `loop()`. -/
def pumpUpdate (pumpOn thresholdReached buttonHigh : Bool) (inaRead : ℕ) : Bool × Bool :=
  let p := if buttonHigh then true else pumpOn
  if p then
    (if 635 < inaRead then (false, true) else (p, thresholdReached))
  else (p, thresholdReached)

/-- `millis() - timer >= d` computed on `unsigned long`. -/
def elapsedSince (now timer d : ℕ) : Bool :=
  decide (d ≤ (now % ULONG_MOD + ULONG_MOD - timer % ULONG_MOD) % ULONG_MOD)

/-- One full call of `loop()`. The state-machine `switch` dispatches on the
current state, which the preceding pump-control block never modifies, so the
match scrutinee is written as `s0.currentState`. -/
def loopStep (s0 : MonitorState) (inp : LoopInput) : MonitorState :=
  let pt := pumpUpdate s0.pumpOn s0.thresholdReached inp.buttonHigh inp.inaRead
  let s := { s0 with pumpOn := pt.1, thresholdReached := pt.2 }
  let pressureValue : ℚ := (inp.pressureRead : ℚ) * (5 / 1023)
  let oscillometricValue : ℚ := (inp.oscilloRead : ℚ) * (5 / 1023)
  let pressure_mmHg := pressureValue * VOLTS_TO_MMHG
  match s0.currentState with
  | State.WAITING_FOR_SIGNAL =>
    if s.thresholdReached then
      { s with currentState := State.DELAY_AFTER_THRESHOLD, stateTimer := inp.now % ULONG_MOD }
    else s
  | State.DELAY_AFTER_THRESHOLD =>
    if elapsedSince inp.now s.stateTimer INITIAL_DELAY then
      { s with currentState := State.PROCESSING_SIGNAL, sampleTimer := inp.now % ULONG_MOD }
    else s
  | State.PROCESSING_SIGNAL =>
    if elapsedSince inp.now s.sampleTimer SAMPLE_INTERVAL then
      let peak := peakStep s.peak oscillometricValue inp.now
      let pBuf := Function.update s.pressureBuffer s.agg.bufferIndex pressure_mmHg
      let oBuf := Function.update s.oscillometricBuffer s.agg.bufferIndex oscillometricValue
      let a := aggSample s.agg pressure_mmHg oscillometricValue
      if WINDOW_SIZE ≤ a.bufferIndex then
        let st := appendReading s.store (emitReading a)
        let a2 := resetAgg a
        if TOTAL_SECONDS ≤ st.secondCounter then
          { s with
            peak := peak
            sampleTimer := inp.now % ULONG_MOD
            pressureBuffer := pBuf
            oscillometricBuffer := oBuf
            agg := a2
            store := st
            bpResults := some (calculateBloodPressure (readAt st.readings) st.maxAmplitude
              st.maxAmplitudeIndex peak.pulseStart peak.pulseEnd)
            bpCalcCount := s.bpCalcCount + 1
            currentState := State.COMPLETE }
        else
          { s with
            peak := peak
            sampleTimer := inp.now % ULONG_MOD
            pressureBuffer := pBuf
            oscillometricBuffer := oBuf
            agg := a2
            store := st }
      else
        { s with
          peak := peak
          sampleTimer := inp.now % ULONG_MOD
          pressureBuffer := pBuf
          oscillometricBuffer := oBuf
          agg := a }
    else s
  | State.COMPLETE => s

/-! ## Spec-side characterisations

These definitions follow the specification's wording (not the source) and
are used to compare the source's search against the spec's description. -/

/-- Spec-side description of the closest-amplitude selection as the source
realises it: the first index in scan order whose difference to the target is
strictly below the 999 sentinel and minimal among all scanned differences;
when no scanned difference is below 999, the scan default (the starting
index `maxAmplitudeIndex`). -/
def closestScan (amps : ℕ → ℚ) (target : ℚ) (scan : List ℕ) (dflt : ℕ) : ℕ :=
  (scan.find? (fun j =>
    decide (|amps j - target| < 999) &&
      scan.all (fun k => decide (|amps j - target| ≤ |amps k - target|)))).getD dflt

/-- The selection rule exactly as claim C1 words it, with no sentinel: keep
the scanned reading whose difference is the smallest seen so far, ties going
to the earlier-scanned index. Its result is the first index in scan order
whose difference is minimal among all scanned differences. -/
def closestScanClaim (amps : ℕ → ℚ) (target : ℚ) (scan : List ℕ) (dflt : ℕ) : ℕ :=
  (scan.find? (fun j =>
    scan.all (fun k => decide (|amps j - target| ≤ |amps k - target|)))).getD dflt

/-- Spec-side: the true maximum oscillometric value of a (nonempty) window. -/
def windowOscMax : List (ℚ × ℚ) → ℚ
  | [] => 0
  | x :: xs => (xs.map Prod.snd).foldl max x.2

/-- Spec-side: the true minimum oscillometric value of a (nonempty) window. -/
def windowOscMin : List (ℚ × ℚ) → ℚ
  | [] => 0
  | x :: xs => (xs.map Prod.snd).foldl min x.2

/-- Spec-side: the pressure observed at the window's oscillometric maximum
(at its first occurrence). -/
def pressureAtOscMax (w : List (ℚ × ℚ)) : ℚ :=
  ((w.find? (fun s => decide (s.2 = windowOscMax w))).getD (0, 0)).1

/-- Spec-side: the pressure observed at the window's oscillometric minimum
(at its first occurrence). -/
def pressureAtOscMin (w : List (ℚ × ℚ)) : ℚ :=
  ((w.find? (fun s => decide (s.2 = windowOscMin w))).getD (0, 0)).1

/-! ## Helper lemmas: the closest-difference loop -/

theorem find_congr {α : Type} (p q : α → Bool) :
    ∀ (l : List α), (∀ a ∈ l, p a = q a) → l.find? p = l.find? q := by
  intro l
  induction l with
  | nil => intro _; rfl
  | cons x rest ih =>
    intro h
    have hx := h x (List.mem_cons_self x rest)
    by_cases hp : p x = true
    · rw [List.find?_cons_of_pos _ hp, List.find?_cons_of_pos _ (hx ▸ hp)]
    · rw [List.find?_cons_of_neg _ hp, List.find?_cons_of_neg _ (hx ▸ hp),
        ih (fun a ha => h a (List.mem_cons_of_mem x ha))]

theorem exists_min_on (f : ℕ → ℚ) :
    ∀ (l : List ℕ), l ≠ [] → ∃ j ∈ l, ∀ k ∈ l, f j ≤ f k := by
  intro l
  induction l with
  | nil => intro h; exact absurd rfl h
  | cons x rest ih =>
    intro _
    rcases eq_or_ne rest [] with h | h
    · subst h
      exact ⟨x, List.mem_cons_self x [], by
        intro k hk
        rcases List.mem_cons.1 hk with rfl | hk
        · exact le_refl _
        · exact absurd hk (List.not_mem_nil k)⟩
    · obtain ⟨j, hj, hjmin⟩ := ih h
      rcases le_total (f x) (f j) with hle | hle
      · refine ⟨x, List.mem_cons_self x rest, ?_⟩
        intro k hk
        rcases List.mem_cons.1 hk with rfl | hk
        · exact le_refl _
        · exact le_trans hle (hjmin k hk)
      · refine ⟨j, List.mem_cons_of_mem x hj, ?_⟩
        intro k hk
        rcases List.mem_cons.1 hk with rfl | hk
        · exact hle
        · exact hjmin k hk

/-- The closest-difference tracking loop, abstracted over the difference
function: `searchLoop` is exactly this with `D j = |amps j - target|`. -/
def bestFold (D : ℕ → ℚ) : List ℕ → ℚ × ℕ → ℚ × ℕ
  | [], best => best
  | j :: rest, best => if D j < best.1 then bestFold D rest (D j, j) else bestFold D rest best

theorem searchLoop_eq_bestFold (amps : ℕ → ℚ) (t : ℚ) :
    ∀ (l : List ℕ) (b : ℚ × ℕ), searchLoop amps t l b = bestFold (fun j => |amps j - t|) l b := by
  intro l
  induction l with
  | nil => intro b; rfl
  | cons x rest ih =>
    intro b
    simp only [searchLoop, bestFold]
    by_cases h : |amps x - t| < b.1
    · simp [h, ih]
    · simp [h, ih]

/-- The loop's final index is the first scanned index whose difference is
below the starting best difference `d` and minimal among all scanned
differences; when there is no such index it is the starting index `i`. -/
theorem bestFold_snd_eq_find (D : ℕ → ℚ) :
    ∀ (l : List ℕ) (d : ℚ) (i : ℕ),
    (bestFold D l (d, i)).2 =
      (l.find? (fun j => decide (D j < d) && l.all (fun k => decide (D j ≤ D k)))).getD i := by
  intro l
  induction l with
  | nil => intro d i; rfl
  | cons x rest ih =>
    intro d i
    rw [List.find?_cons]
    by_cases hx : D x < d
    · have hstep : bestFold D (x :: rest) (d, i) = bestFold D rest (D x, x) := by
        simp [bestFold, hx]
      rw [hstep, ih]
      by_cases hall : ∀ k ∈ rest, D x ≤ D k
      · have hpx : (decide (D x < d) && (x :: rest).all (fun k => decide (D x ≤ D k))) = true := by
          rw [Bool.and_eq_true]
          refine ⟨decide_eq_true hx, ?_⟩
          rw [List.all_eq_true]
          intro k hk
          rcases List.mem_cons.1 hk with rfl | hk
          · exact decide_eq_true (le_refl _)
          · exact decide_eq_true (hall k hk)
        have hnone : rest.find? (fun j => decide (D j < D x) &&
            rest.all (fun k => decide (D j ≤ D k))) = none := by
          rw [List.find?_eq_none]
          intro j hj
          have hnot : ¬ D j < D x := not_lt.2 (hall j hj)
          simp [hnot]
        rw [hnone]
        simp only [hpx]
        rfl
      · push_neg at hall
        obtain ⟨k0, hk0mem, hk0⟩ := hall
        have hpx : (decide (D x < d) && (x :: rest).all (fun k => decide (D x ≤ D k))) = false := by
          rw [Bool.and_eq_false_iff]
          right
          rw [List.all_eq_false]
          exact ⟨k0, List.mem_cons_of_mem x hk0mem, by
            simp only [decide_eq_true_eq]
            exact not_le.2 hk0⟩
        have hcongr : rest.find? (fun j => decide (D j < d) &&
              (x :: rest).all (fun k => decide (D j ≤ D k)))
            = rest.find? (fun j => decide (D j < D x) &&
              rest.all (fun k => decide (D j ≤ D k))) := by
          apply find_congr
          intro j hj
          by_cases hrest : rest.all (fun k => decide (D j ≤ D k)) = true
          · have hjk0 : D j ≤ D k0 := of_decide_eq_true (List.all_eq_true.1 hrest k0 hk0mem)
            have hjx : D j < D x := lt_of_le_of_lt hjk0 hk0
            have hjd : D j < d := lt_trans hjx hx
            simp [List.all_cons, hrest, hjx, hjd, le_of_lt hjx]
          · have hfalse : rest.all (fun k => decide (D j ≤ D k)) = false :=
              Bool.eq_false_iff.2 hrest
            simp [List.all_cons, hfalse]
        have hne : rest ≠ [] := by
          intro hemp
          rw [hemp] at hk0mem
          exact List.not_mem_nil k0 hk0mem
        obtain ⟨j0, hj0mem, hj0min⟩ := exists_min_on D rest hne
        have hsome : (rest.find? (fun j => decide (D j < D x) &&
            rest.all (fun k => decide (D j ≤ D k)))).isSome := by
          rw [List.find?_isSome]
          refine ⟨j0, hj0mem, ?_⟩
          have h1 : D j0 < D x := lt_of_le_of_lt (hj0min k0 hk0mem) hk0
          simp only [Bool.and_eq_true, decide_eq_true_eq, List.all_eq_true]
          exact ⟨h1, fun k hk => hj0min k hk⟩
        obtain ⟨v, hv⟩ := Option.isSome_iff_exists.1 hsome
        simp only [hpx]
        rw [hcongr, hv]
        rfl
    · have hstep : bestFold D (x :: rest) (d, i) = bestFold D rest (d, i) := by
        simp [bestFold, hx]
      rw [hstep, ih]
      have hpx : (decide (D x < d) && (x :: rest).all (fun k => decide (D x ≤ D k))) = false := by
        rw [Bool.and_eq_false_iff]
        left
        exact decide_eq_false hx
      have hcongr : rest.find? (fun j => decide (D j < d) &&
            (x :: rest).all (fun k => decide (D j ≤ D k)))
          = rest.find? (fun j => decide (D j < d) &&
            rest.all (fun k => decide (D j ≤ D k))) := by
        apply find_congr
        intro j hj
        by_cases hjd : D j < d
        · have hjx : D j ≤ D x := le_trans (le_of_lt hjd) (not_lt.1 hx)
          simp [List.all_cons, hjd, hjx]
        · simp [hjd]
      simp only [hpx]
      rw [hcongr]

/-- If no scanned difference beats the current best, the loop returns its
starting pair unchanged. -/
theorem bestFold_no_improvement (D : ℕ → ℚ) :
    ∀ (l : List ℕ) (d : ℚ) (i : ℕ), (∀ j ∈ l, d ≤ D j) → bestFold D l (d, i) = (d, i) := by
  intro l
  induction l with
  | nil => intro d i _; rfl
  | cons x rest ih =>
    intro d i h
    have hx : ¬ D x < d := not_lt.2 (h x (List.mem_cons_self x rest))
    simp only [bestFold, hx, if_false]
    exact ih d i (fun j hj => h j (List.mem_cons_of_mem x hj))

/-- The loop's final index is either the starting index or a scanned one. -/
theorem bestFold_mem (D : ℕ → ℚ) :
    ∀ (l : List ℕ) (d : ℚ) (i : ℕ),
      (bestFold D l (d, i)).2 = i ∨ (bestFold D l (d, i)).2 ∈ l := by
  intro l
  induction l with
  | nil => intro d i; exact Or.inl rfl
  | cons x rest ih =>
    intro d i
    by_cases hx : D x < d
    · have hstep : bestFold D (x :: rest) (d, i) = bestFold D rest (D x, x) := by
        simp [bestFold, hx]
      rw [hstep]
      rcases ih (D x) x with h | h
      · exact Or.inr (by rw [h]; exact List.mem_cons_self x rest)
      · exact Or.inr (List.mem_cons_of_mem x h)
    · have hstep : bestFold D (x :: rest) (d, i) = bestFold D rest (d, i) := by
        simp [bestFold, hx]
      rw [hstep]
      rcases ih d i with h | h
      · exact Or.inl h
      · exact Or.inr (List.mem_cons_of_mem x h)

/-- Either nothing is ever selected, or the final best difference is the
selected index's difference and is strictly below the starting sentinel. -/
theorem bestFold_improved (D : ℕ → ℚ) :
    ∀ (l : List ℕ) (d : ℚ) (i : ℕ),
      bestFold D l (d, i) = (d, i) ∨
      (D (bestFold D l (d, i)).2 = (bestFold D l (d, i)).1 ∧ (bestFold D l (d, i)).1 < d) := by
  intro l
  induction l with
  | nil => intro d i; exact Or.inl rfl
  | cons x rest ih =>
    intro d i
    by_cases hx : D x < d
    · have hstep : bestFold D (x :: rest) (d, i) = bestFold D rest (D x, x) := by
        simp [bestFold, hx]
      rw [hstep]
      rcases ih (D x) x with h | ⟨h1, h2⟩
      · rw [h]
        exact Or.inr ⟨rfl, hx⟩
      · exact Or.inr ⟨h1, lt_trans h2 hx⟩
    · have hstep : bestFold D (x :: rest) (d, i) = bestFold D rest (d, i) := by
        simp [bestFold, hx]
      rw [hstep]
      rcases ih d i with h | ⟨h1, h2⟩
      · exact Or.inl h
      · exact Or.inr ⟨h1, h2⟩

/-! ## Store-tracking helper -/

/-- The maximum-tracking projection of the Reading Store. -/
def storeTrack (st : StoreState) : MaxTrack :=
  ⟨st.maxAmplitude, st.maxAmplitudeIndex, st.secondCounter⟩

/-- Appending readings drives the maximum-tracking scalars exactly as the
amplitude fold `trackRun` does. -/
theorem foldl_appendReading_track : ∀ (l : List BPReading) (st : StoreState),
    storeTrack (l.foldl appendReading st) = trackRun (storeTrack st) (l.map BPReading.amplitude) := by
  intro l
  induction l with
  | nil => intro st; rfl
  | cons r rest ih =>
    intro st
    simp only [List.foldl_cons, List.map_cons, trackRun]
    rw [ih (appendReading st r)]
    rfl

/-! ## Concrete evaluations for the flat-except-peak scenario -/

set_option maxRecDepth 8192 in
theorem c2_track_eval : trackRun ⟨0, 0, 0⟩
    ((List.range 30).map (fun i => if i = 10 then (20 : ℚ) else 5)) = ⟨20, 10, 30⟩ := by
  norm_num [trackRun, trackStep, List.range_succ]

set_option maxRecDepth 8192 in
theorem c2_sbp_eval (press : ℕ → ℚ) :
    (calculateBloodPressure (fun i => ⟨if i = 10 then 20 else 5, press i⟩) 20 10 0 0).systolic
      = press 9 := by
  norm_num [calculateBloodPressure, findPressureAtAmplitude, bestIndex, scanIndices, searchLoop,
    backwardIndices, List.range_succ]

set_option maxRecDepth 8192 in
theorem c2_dbp_eval (press : ℕ → ℚ) :
    (calculateBloodPressure (fun i => ⟨if i = 10 then 20 else 5, press i⟩) 20 10 0 0).diastolic
      = press 10 := by
  norm_num [calculateBloodPressure, findPressureAtAmplitude, bestIndex, scanIndices, searchLoop,
    forwardIndices, TOTAL_SECONDS, List.range']

/-! ## Claim C1 -/

/-- Claim C1 (amended): for every Reading Store, `calculateBloodPressure`
computes SBP as the pressure of the reading selected by scanning indices
from `maxAmplitudeIndex` down to 0 inclusive, keeping the reading whose
difference `|amplitude - 0.55 * maxAmplitude|` is the smallest seen so far
AND strictly below the initial sentinel difference 999 (only strictly
smaller differences replace the current best, so on ties the reading closer
to `maxAmplitudeIndex` wins, and if no scanned difference is below 999 the
reading at `maxAmplitudeIndex` itself is used); DBP symmetrically, scanning
forward up to index 29 against the threshold `0.75 * maxAmplitude`.
`closestScan` is that first-minimal-difference-under-999 selection. -/
theorem envelope_search_sentinel_characterisation (readings : ℕ → BPReading) (maxAmplitude : ℚ)
    (maxAmplitudeIndex pulseStart pulseEnd : ℕ) :
    (calculateBloodPressure readings maxAmplitude maxAmplitudeIndex pulseStart pulseEnd).systolic
      = (readings (closestScan (fun i => (readings i).amplitude) (0.55 * maxAmplitude)
          (backwardIndices maxAmplitudeIndex) maxAmplitudeIndex)).pressure ∧
    (calculateBloodPressure readings maxAmplitude maxAmplitudeIndex pulseStart pulseEnd).diastolic
      = (readings (closestScan (fun i => (readings i).amplitude) (0.75 * maxAmplitude)
          (forwardIndices maxAmplitudeIndex) maxAmplitudeIndex)).pressure := by
  constructor
  · have hidx : bestIndex (fun i => (readings i).amplitude) maxAmplitudeIndex
        (0.55 * maxAmplitude) true
        = closestScan (fun i => (readings i).amplitude) (0.55 * maxAmplitude)
            (backwardIndices maxAmplitudeIndex) maxAmplitudeIndex := by
      unfold bestIndex scanIndices closestScan
      rw [searchLoop_eq_bestFold, bestFold_snd_eq_find]
      rfl
    simp only [calculateBloodPressure, findPressureAtAmplitude, hidx]
  · have hidx : bestIndex (fun i => (readings i).amplitude) maxAmplitudeIndex
        (0.75 * maxAmplitude) false
        = closestScan (fun i => (readings i).amplitude) (0.75 * maxAmplitude)
            (forwardIndices maxAmplitudeIndex) maxAmplitudeIndex := by
      unfold bestIndex scanIndices closestScan
      rw [searchLoop_eq_bestFold, bestFold_snd_eq_find]
      rfl
    simp only [calculateBloodPressure, findPressureAtAmplitude, hidx]

/-- Readings falsifying claim C1 as literally stated: with amplitudes 4000
at index 1 and 3500 at index 0, both scanned differences to the systolic
target 2200 are above the 999 sentinel. -/
def c1Readings : ℕ → BPReading := fun i =>
  if i = 1 then ⟨4000, 2⟩ else if i = 0 then ⟨3500, 1⟩ else ⟨0, 0⟩

/-- Claim C1 counterexample: the source's SBP keeps the reading at
`maxAmplitudeIndex` (pressure 2, difference 1800) although the reading at
index 0 has the smallest scanned difference (1300, pressure 1), because
neither difference is below the 999 sentinel; so the search is NOT the
plain smallest-seen-so-far scan the claim describes. -/
theorem envelope_search_literal_scan_counterexample :
    (calculateBloodPressure c1Readings 4000 1 0 0).systolic = 2 ∧
    (c1Readings (closestScanClaim (fun i => (c1Readings i).amplitude) (0.55 * 4000)
        (backwardIndices 1) 1)).pressure = 1 ∧
    ((2 : ℚ) ≠ 1) := by
  refine ⟨?_, ?_, by norm_num⟩
  · norm_num [calculateBloodPressure, findPressureAtAmplitude, bestIndex, scanIndices, searchLoop,
      backwardIndices, List.range_succ, c1Readings]
  · norm_num [closestScanClaim, backwardIndices, List.range_succ, c1Readings,
      List.find?_cons, List.all_cons]

/-! ## Claim C2 -/

set_option maxRecDepth 32768 in
/-- Claim C2 (amended): for 30 readings with amplitude 5 everywhere except
amplitude 20 at index 10 (any pressures), the accumulated store has
`maxAmplitude = 20`, `maxAmplitudeIndex = 10`, the thresholds are 11.0 and
15.0, the SBP search returns the pressure of the reading at index 9, and
the DBP search returns the pressure of the reading at index 10 — the
maximum reading itself, since its difference `|20 - 15| = 5` is smaller
than the `|5 - 15| = 10` of every reading after it. -/
theorem flat_except_peak_scenario (press : ℕ → ℚ) :
    (((List.range 30).map (fun i => (⟨if i = 10 then 20 else 5, press i⟩ : BPReading))).foldl
        appendReading initStore).maxAmplitude = 20 ∧
    (((List.range 30).map (fun i => (⟨if i = 10 then 20 else 5, press i⟩ : BPReading))).foldl
        appendReading initStore).maxAmplitudeIndex = 10 ∧
    (0.55 : ℚ) * 20 = 11 ∧ (0.75 : ℚ) * 20 = 15 ∧
    (calculateBloodPressure (fun i => ⟨if i = 10 then 20 else 5, press i⟩) 20 10 0 0).systolic
      = press 9 ∧
    (calculateBloodPressure (fun i => ⟨if i = 10 then 20 else 5, press i⟩) 20 10 0 0).diastolic
      = press 10 := by
  have htrack := foldl_appendReading_track
    ((List.range 30).map (fun i => (⟨if i = 10 then 20 else 5, press i⟩ : BPReading))) initStore
  have hmap : ((List.range 30).map
      (fun i => (⟨if i = 10 then 20 else 5, press i⟩ : BPReading))).map BPReading.amplitude
      = (List.range 30).map (fun i => if i = 10 then (20 : ℚ) else 5) := by
    rw [List.map_map]
    rfl
  have h0 : storeTrack initStore = (⟨0, 0, 0⟩ : MaxTrack) := rfl
  rw [hmap, h0, c2_track_eval] at htrack
  have h1 := congrArg MaxTrack.maxAmplitude htrack
  have h2 := congrArg MaxTrack.maxAmplitudeIndex htrack
  dsimp only [storeTrack] at h1 h2
  exact ⟨h1, h2, by norm_num, by norm_num, c2_sbp_eval press, c2_dbp_eval press⟩

/-- Claim C2 counterexample: in the claim's own scenario (pressure at index
`i` taken to be `i`), the DBP search returns the pressure of the reading at
index 10 (the maximum reading), not the pressure of the reading at index 11
as the claim states. -/
theorem flat_except_peak_dbp_counterexample :
    (calculateBloodPressure (fun i => ⟨if i = 10 then 20 else 5, (i : ℚ)⟩) 20 10 0 0).diastolic
      = 10 ∧
    ((fun i => (⟨if i = 10 then 20 else 5, (i : ℚ)⟩ : BPReading)) 11).pressure = 11 ∧
    ((10 : ℚ) ≠ 11) := by
  refine ⟨?_, by norm_num, by norm_num⟩
  have h := c2_dbp_eval (fun i => (i : ℚ))
  simpa using h

/-! ## Claim C8 -/

/-- Claim C8: for every Reading Store contents and every
`maxAmplitudeIndex`, the index selected by the backward SBP search is at
most `maxAmplitudeIndex`, and the index selected by the forward DBP search
is at least `maxAmplitudeIndex` (also when nothing improves on the initial
best). -/
theorem search_index_bounds (readings : ℕ → BPReading) (maxAmplitude : ℚ) (maxAmplitudeIndex : ℕ) :
    bestIndex (fun i => (readings i).amplitude) maxAmplitudeIndex (0.55 * maxAmplitude) true
      ≤ maxAmplitudeIndex ∧
    maxAmplitudeIndex
      ≤ bestIndex (fun i => (readings i).amplitude) maxAmplitudeIndex (0.75 * maxAmplitude) false := by
  constructor
  · unfold bestIndex
    rw [searchLoop_eq_bestFold]
    rcases bestFold_mem (fun j => |(readings j).amplitude - 0.55 * maxAmplitude|)
        (scanIndices maxAmplitudeIndex true) 999 maxAmplitudeIndex with h | h
    · rw [h]
    · revert h
      generalize (bestFold (fun j => |(readings j).amplitude - 0.55 * maxAmplitude|)
        (scanIndices maxAmplitudeIndex true) (999, maxAmplitudeIndex)).2 = b
      intro h
      simp [scanIndices, backwardIndices, Nat.lt_succ_iff] at h
      exact h
  · unfold bestIndex
    rw [searchLoop_eq_bestFold]
    rcases bestFold_mem (fun j => |(readings j).amplitude - 0.75 * maxAmplitude|)
        (scanIndices maxAmplitudeIndex false) 999 maxAmplitudeIndex with h | h
    · rw [h]
    · revert h
      generalize (bestFold (fun j => |(readings j).amplitude - 0.75 * maxAmplitude|)
        (scanIndices maxAmplitudeIndex false) (999, maxAmplitudeIndex)).2 = b
      intro h
      simp [scanIndices, forwardIndices, List.mem_range'_1] at h
      exact h.1

/-! ## Claim C10 -/

/-- Claim C10: the search initialises its best difference to the sentinel
999 and its best index to `maxAmplitudeIndex`; when every scanned
difference is at least 999 nothing is selected and
`readings[maxAmplitudeIndex].pressure` is returned, and a reading other
than the default can only be chosen if its difference is strictly below
999. -/
theorem sentinel_guard :
    (∀ (readings : ℕ → BPReading) (m : ℕ) (t : ℚ) (b : Bool),
       (∀ j ∈ scanIndices m b, 999 ≤ |(readings j).amplitude - t|) →
       bestIndex (fun i => (readings i).amplitude) m t b = m ∧
       findPressureAtAmplitude readings m t b = (readings m).pressure) ∧
    (∀ (amps : ℕ → ℚ) (m : ℕ) (t : ℚ) (b : Bool),
       bestIndex amps m t b ≠ m → |amps (bestIndex amps m t b) - t| < 999) := by
  constructor
  · intro readings m t b h
    have hidx : bestIndex (fun i => (readings i).amplitude) m t b = m := by
      unfold bestIndex
      rw [searchLoop_eq_bestFold,
        bestFold_no_improvement (fun j => |(readings j).amplitude - t|) (scanIndices m b) 999 m h]
    exact ⟨hidx, by simp only [findPressureAtAmplitude, hidx]⟩
  · intro amps m t b hne
    unfold bestIndex at hne ⊢
    rw [searchLoop_eq_bestFold] at hne ⊢
    rcases bestFold_improved (fun j => |amps j - t|) (scanIndices m b) 999 m with h | ⟨h1, h2⟩
    · exact absurd (by rw [h]) hne
    · rw [h1]
      exact h2

/-- Witness for claim C10 at concrete inputs: flat zero amplitudes against
target 2000 (all differences 2000 ≥ 999) return the default, and in the
flat-except-peak store the backward search picks index 9 ≠ 10 whose
difference is below 999. -/
theorem sentinel_guard_witness :
    (bestIndex (fun i => ((fun _ => (⟨0, 7⟩ : BPReading)) i).amplitude) 5 2000 true = 5 ∧
     findPressureAtAmplitude (fun _ => (⟨0, 7⟩ : BPReading)) 5 2000 true
       = ((fun _ => (⟨0, 7⟩ : BPReading)) 5).pressure) ∧
    |(fun i => if i = 10 then (20 : ℚ) else 5)
        (bestIndex (fun i => if i = 10 then (20 : ℚ) else 5) 10 11 true) - 11| < 999 := by
  constructor
  · exact sentinel_guard.1 (fun _ => ⟨0, 7⟩) 5 2000 true (by
      intro j hj
      norm_num)
  · exact sentinel_guard.2 (fun i => if i = 10 then (20 : ℚ) else 5) 10 11 true (by
      norm_num [bestIndex, scanIndices, searchLoop, backwardIndices, List.range_succ])


/-- Claim C6: one peak-detector step. In `RISING_STATE`, a sample strictly
below the previous one moves to `FALLING_STATE`, increments the peak count,
and writes the 15th/16th peak timestamps (as the 16-bit slots store them)
exactly when the count becomes 15/16; in `FALLING_STATE`, a sample strictly
above the previous one moves to `RISING_STATE` with no count change and no
timestamp write; in all cases the sample becomes `prevOscillometric`; the
detector starts in `FALLING_STATE` with `prevOscillometric = 0`. -/
theorem peak_detector_step_spec (p : PeakState) (osc : ℚ) (now : ℕ) :
    (p.oscillationState = OscillationState.RISING_STATE → osc < p.prevOscillometric →
      peakStep p osc now =
        { oscillationState := OscillationState.FALLING_STATE
          prevOscillometric := osc
          numPeaks := p.numPeaks + 1
          pulseStart := if p.numPeaks + 1 = 15 then now % UINT_MOD else p.pulseStart
          pulseEnd := if p.numPeaks + 1 = 16 then now % UINT_MOD else p.pulseEnd }) ∧
    (p.oscillationState = OscillationState.FALLING_STATE → p.prevOscillometric < osc →
      peakStep p osc now =
        { p with oscillationState := OscillationState.RISING_STATE, prevOscillometric := osc }) ∧
    (peakStep p osc now).prevOscillometric = osc ∧
    initPeakState.oscillationState = OscillationState.FALLING_STATE ∧
    initPeakState.prevOscillometric = 0 := by
  refine ⟨?_, ?_, ?_, rfl, rfl⟩
  · intro hs hlt
    simp [peakStep, hs, hlt]
  · intro hs hlt
    simp [peakStep, hs, hlt, not_lt.2 (le_of_lt hlt)]
  · unfold peakStep
    rcases hs : p.oscillationState <;> simp [hs]

/-- Witness for claim C6: the rising-to-falling 15th-peak capture at
`millis() = 70000` (stored truncated to 4464) and a falling-to-rising
transition that changes nothing but the phase and the previous value. -/
theorem peak_detector_step_witness :
    peakStep ⟨OscillationState.RISING_STATE, 5, 14, 0, 0⟩ 2 70000
      = ⟨OscillationState.FALLING_STATE, 2, 15, 4464, 0⟩ ∧
    peakStep ⟨OscillationState.FALLING_STATE, 1, 3, 9, 9⟩ 4 123
      = ⟨OscillationState.RISING_STATE, 4, 3, 9, 9⟩ := by
  constructor
  · rw [(peak_detector_step_spec ⟨OscillationState.RISING_STATE, 5, 14, 0, 0⟩ 2 70000).1 rfl
      (by norm_num)]
    decide
  · rw [(peak_detector_step_spec ⟨OscillationState.FALLING_STATE, 1, 3, 9, 9⟩ 4 123).2.1 rfl
      (by norm_num)]

/-- Claim C9: the pulse timestamps are stored in 16-bit unsigned slots, so
each recorded value is `millis()` reduced modulo 2^16; the heart-rate
interval is the modulo-2^16 difference `pulseEnd - pulseStart`; and when
`pulseEnd` was never set (still 0) but `pulseStart` was, the wrapped
difference is the large positive number 2^16 - pulseStart and a spurious
heart rate `60000 / (2^16 - pulseStart)` BPM is computed. -/
theorem pulse_timestamps_mod_2_16 :
    (∀ (p : PeakState) (osc : ℚ) (now : ℕ),
       p.oscillationState = OscillationState.RISING_STATE → osc < p.prevOscillometric →
       (p.numPeaks + 1 = 15 → (peakStep p osc now).pulseStart = now % 65536) ∧
       (p.numPeaks + 1 = 16 → (peakStep p osc now).pulseEnd = now % 65536)) ∧
    (∀ pulseStart pulseEnd : ℕ, pulseStart ≤ pulseEnd →
       hrDt pulseStart pulseEnd = (((pulseEnd - pulseStart) % 65536 : ℕ) : ℚ) / 1000) ∧
    (∀ s : ℕ, 0 < s → s < 65536 →
       heartRate s 0 = some (60000 / ((65536 - s : ℕ) : ℚ))) := by
  refine ⟨?_, ?_, ?_⟩
  · intro p osc now hs hlt
    constructor
    · intro h15
      simp [peakStep, hs, hlt, h15, UINT_MOD]
    · intro h16
      simp [peakStep, hs, hlt, h16, UINT_MOD]
  · intro ps pe h
    have hnat : (pe % 65536 + 65536 - ps % 65536) % 65536 = (pe - ps) % 65536 := by omega
    simp only [hrDt, UINT_MOD]
    rw [hnat]
  · intro s h0 hm
    have hnat : (0 % 65536 + 65536 - s % 65536) % 65536 = 65536 - s := by omega
    have hlt : 0 < 65536 - s := by omega
    have hq : (0 : ℚ) < ((65536 - s : ℕ) : ℚ) := by exact_mod_cast hlt
    have hne : ((65536 - s : ℕ) : ℚ) ≠ 0 := ne_of_gt hq
    simp only [heartRate, hrDt, UINT_MOD]
    rw [hnat, if_pos (by positivity)]
    congr 1
    field_simp
    norm_num

/-- Witness for claim C9 at concrete inputs: a 15th peak at 70000 ms and a
16th peak at 80000 ms are stored modulo 2^16; the interval for stored
timestamps 1000/1600 is 600 ms; and `pulseStart = 5000` with `pulseEnd`
unset yields the spurious rate `60000 / 60536` BPM. -/
theorem pulse_timestamps_mod_2_16_witness :
    (peakStep ⟨OscillationState.RISING_STATE, 5, 14, 0, 0⟩ 2 70000).pulseStart = 70000 % 65536 ∧
    (peakStep ⟨OscillationState.RISING_STATE, 5, 15, 4464, 0⟩ 2 80000).pulseEnd = 80000 % 65536 ∧
    hrDt 1000 1600 = (((1600 - 1000) % 65536 : ℕ) : ℚ) / 1000 ∧
    heartRate 5000 0 = some (60000 / ((65536 - 5000 : ℕ) : ℚ)) :=
  ⟨(pulse_timestamps_mod_2_16.1 ⟨OscillationState.RISING_STATE, 5, 14, 0, 0⟩ 2 70000 rfl
      (by norm_num)).1 rfl,
   (pulse_timestamps_mod_2_16.1 ⟨OscillationState.RISING_STATE, 5, 15, 4464, 0⟩ 2 80000 rfl
      (by norm_num)).2 rfl,
   pulse_timestamps_mod_2_16.2.1 1000 1600 (by norm_num),
   pulse_timestamps_mod_2_16.2.2 5000 (by norm_num) (by norm_num)⟩

/-- Claim C4 (code-bug evidence): with `pulseStart = 5000` (peak 15 seen at
5000 ms) and `pulseEnd` still at its unset initial value 0 (peak 16 never
detected), the unsigned 16-bit subtraction wraps to 60536 ms > 0 and the
code reports the spurious heart rate `7500/7567` (about 0.99 BPM) instead
of the distinguished unavailable result the claim (and the companion
version's "N/A (insufficient peak timing)" branch) requires. -/
theorem heart_rate_spurious_on_unset_pulseEnd :
    initPeakState.pulseEnd = 0 ∧
    heartRate 5000 0 = some (7500 / 7567) ∧
    heartRate 5000 0 ≠ none := by
  refine ⟨rfl, ?_, ?_⟩
  · norm_num [heartRate, hrDt, UINT_MOD]
  · norm_num [heartRate, hrDt, UINT_MOD]
    intro hcontra
    exact Option.noConfusion hcontra


theorem aggSample_bufferIndex (a : AggState) (p o : ℚ) :
    (aggSample a p o).bufferIndex = a.bufferIndex + 1 := by
  simp only [aggSample]
  split <;> split <;> rfl

theorem aggSample_maxVal (a : AggState) (p o : ℚ) :
    (aggSample a p o).maxVal = if o > a.maxVal then o else a.maxVal := by
  simp only [aggSample]
  split <;> split <;> rfl

theorem aggSample_minVal (a : AggState) (p o : ℚ) :
    (aggSample a p o).minVal = if o < a.minVal then o else a.minVal := by
  simp only [aggSample]
  split <;> split <;> rfl

theorem aggSample_maxPressure (a : AggState) (p o : ℚ) :
    (aggSample a p o).maxPressure = if o > a.maxVal then p else a.maxPressure := by
  simp only [aggSample]
  split <;> split <;> rfl

theorem aggSample_minPressure (a : AggState) (p o : ℚ) :
    (aggSample a p o).minPressure = if o < a.minVal then p else a.minPressure := by
  simp only [aggSample]
  split <;> split <;> rfl

theorem trackStep_secondCounter (t : MaxTrack) (amp : ℚ) :
    (trackStep t amp).secondCounter = t.secondCounter + 1 := by
  unfold trackStep
  split <;> rfl

theorem trackStep_index_ne_zero (t : MaxTrack) (amp : ℚ)
    (h : t.maxAmplitudeIndex ≠ 0) : (trackStep t amp).maxAmplitudeIndex ≠ 0 := by
  unfold trackStep
  split
  · rename_i hcond
    exact Nat.pos_iff_ne_zero.1 hcond.2
  · exact h

theorem trackRun_index_persists : ∀ (amps : List ℚ) (t : MaxTrack),
    t.maxAmplitudeIndex ≠ 0 → (trackRun t amps).maxAmplitudeIndex ≠ 0 := by
  intro amps
  induction amps with
  | nil => intro t h; exact h
  | cons x rest ih =>
    intro t h
    simp only [trackRun, List.foldl_cons]
    exact ih (trackStep t x) (trackStep_index_ne_zero t x h)

theorem trackRun_trigger : ∀ (amps : List ℚ) (t : MaxTrack),
    0 ≤ t.maxAmplitude → (t.maxAmplitudeIndex = 0 → t.maxAmplitude = 0) →
    (∃ k, k < amps.length ∧ 1 ≤ t.secondCounter + k ∧ 0 < amps.getD k 0) →
    (trackRun t amps).maxAmplitudeIndex ≠ 0 := by
  intro amps
  induction amps with
  | nil =>
    intro t _ _ hex
    obtain ⟨k, hk, _, _⟩ := hex
    simp at hk
  | cons x rest ih =>
    intro t h0 hinv hex
    obtain ⟨k, hk, hc, hpos⟩ := hex
    simp only [trackRun, List.foldl_cons]
    rcases k with _ | k'
    · have hx : 0 < x := by simpa using hpos
      by_cases hidx : t.maxAmplitudeIndex = 0
      · have hmax0 : t.maxAmplitude = 0 := hinv hidx
        have hcond : x > t.maxAmplitude ∧ t.secondCounter > 0 := by
          constructor
          · rw [hmax0]; exact hx
          · omega
        apply trackRun_index_persists
        unfold trackStep
        rw [if_pos hcond]
        have : t.secondCounter ≠ 0 := by omega
        simpa using this
      · exact trackRun_index_persists rest (trackStep t x) (trackStep_index_ne_zero t x hidx)
    · refine ih (trackStep t x) ?_ ?_ ⟨k', ?_, ?_, ?_⟩
      · unfold trackStep
        split
        · rename_i hcond
          exact le_of_lt (lt_of_le_of_lt h0 hcond.1)
        · exact h0
      · intro hz
        unfold trackStep at hz ⊢
        split at hz
        · rename_i hcond
          exact absurd hz (Nat.pos_iff_ne_zero.1 hcond.2)
        · rename_i hcond
          rw [if_neg hcond]
          exact hinv hz
      · simpa using hk
      · rw [trackStep_secondCounter]
        omega
      · simpa using hpos



theorem runSamples_window : ∀ (w : List (ℚ × ℚ)) (a : AggState) (st : StoreState),
    0 < w.length → a.bufferIndex + w.length = WINDOW_SIZE →
    runSamples (a, st) w
      = (resetAgg (aggWindowAll a w), appendReading st (emitReading (aggWindowAll a w))) := by
  intro w
  induction w with
  | nil =>
    intro a st h _
    simp at h
  | cons x rest ih =>
    intro a st _ hlen
    rcases rest with _ | ⟨y, rest'⟩
    · have hbi := aggSample_bufferIndex a x.1 x.2
      have hfire : WINDOW_SIZE ≤ (aggSample a x.1 x.2).bufferIndex := by
        rw [hbi]
        simp only [List.length_cons, List.length_nil] at hlen
        omega
      simp [runSamples, sampleStep, aggWindowAll, hfire]
    · have hbi := aggSample_bufferIndex a x.1 x.2
      have hlen' : (aggSample a x.1 x.2).bufferIndex + (y :: rest').length = WINDOW_SIZE := by
        rw [hbi]
        simp only [List.length_cons] at hlen ⊢
        omega
      have hnof : ¬ WINDOW_SIZE ≤ (aggSample a x.1 x.2).bufferIndex := by
        rw [hbi]
        simp only [List.length_cons] at hlen
        simp only [WINDOW_SIZE] at hlen ⊢
        omega
      have hrec := ih (aggSample a x.1 x.2) st (by simp) hlen'
      simp only [runSamples, List.foldl_cons, aggWindowAll] at hrec ⊢
      simp only [sampleStep, hnof, if_false]
      exact hrec

theorem runSamples_flatten : ∀ (ws : List (List (ℚ × ℚ))) (a : AggState) (st : StoreState),
    (∀ w ∈ ws, w.length = WINDOW_SIZE) → a.bufferIndex = 0 →
    runSamples (a, st) ws.flatten = ws.foldl processWindow (a, st) := by
  intro ws
  induction ws with
  | nil => intro a st _ _; rfl
  | cons w ws' ih =>
    intro a st hlen hbi
    have hw : w.length = WINDOW_SIZE := hlen w (List.mem_cons_self w ws')
    have hw0 : 0 < w.length := by
      rw [hw]
      norm_num [WINDOW_SIZE]
    have hwin := runSamples_window w a st hw0 (by rw [hw, hbi]; exact Nat.zero_add WINDOW_SIZE)
    rw [List.flatten_cons, List.foldl_cons]
    show runSamples (a, st) (w ++ ws'.flatten) = ws'.foldl processWindow (processWindow (a, st) w)
    unfold runSamples at hwin ⊢
    rw [List.foldl_append, hwin]
    have : processWindow (a, st) w
        = (resetAgg (aggWindowAll a w), appendReading st (emitReading (aggWindowAll a w))) := rfl
    rw [this]
    exact ih (resetAgg (aggWindowAll a w)) (appendReading st (emitReading (aggWindowAll a w)))
      (fun v hv => hlen v (List.mem_cons_of_mem w hv)) rfl

theorem aggWindowAll_maxVal : ∀ (w : List (ℚ × ℚ)) (a b : AggState), a.maxVal = b.maxVal →
    (aggWindowAll a w).maxVal = (aggWindowAll b w).maxVal := by
  intro w
  induction w with
  | nil => intro a b h; exact h
  | cons x rest ih =>
    intro a b h
    simp only [aggWindowAll, List.foldl_cons] at *
    apply ih
    rw [aggSample_maxVal, aggSample_maxVal, h]

theorem aggWindowAll_minVal : ∀ (w : List (ℚ × ℚ)) (a b : AggState), a.minVal = b.minVal →
    (aggWindowAll a w).minVal = (aggWindowAll b w).minVal := by
  intro w
  induction w with
  | nil => intro a b h; exact h
  | cons x rest ih =>
    intro a b h
    simp only [aggWindowAll, List.foldl_cons] at *
    apply ih
    rw [aggSample_minVal, aggSample_minVal, h]

theorem processWindows_track : ∀ (ws : List (List (ℚ × ℚ))) (a : AggState) (st : StoreState),
    a.maxVal = -999 → a.minVal = 999 →
    storeTrack ((ws.foldl processWindow (a, st)).2)
      = trackRun (storeTrack st) (ws.map windowAmplitude) := by
  intro ws
  induction ws with
  | nil => intro a st _ _; rfl
  | cons w ws' ih =>
    intro a st hmax hmin
    rw [List.foldl_cons, List.map_cons]
    have hamp : (emitReading (aggWindowAll a w)).amplitude = windowAmplitude w := by
      show (aggWindowAll a w).maxVal - (aggWindowAll a w).minVal = windowAmplitude w
      unfold windowAmplitude
      rw [aggWindowAll_maxVal w a initAgg (by rw [hmax]; rfl),
          aggWindowAll_minVal w a initAgg (by rw [hmin]; rfl)]
    have hstep : processWindow (a, st) w
        = (resetAgg (aggWindowAll a w), appendReading st (emitReading (aggWindowAll a w))) := rfl
    rw [hstep, ih (resetAgg (aggWindowAll a w))
      (appendReading st (emitReading (aggWindowAll a w))) rfl rfl]
    have happ : storeTrack (appendReading st (emitReading (aggWindowAll a w)))
        = trackStep (storeTrack st) (windowAmplitude w) := by
      rw [← hamp]
      rfl
    rw [happ]
    rfl

theorem getD_map_windowAmplitude (ws : List (List (ℚ × ℚ))) (i : ℕ) (h : i < ws.length) :
    (ws.map windowAmplitude).getD i 0 = windowAmplitude (ws.getD i []) := by
  rw [List.getD_eq_getElem?_getD, List.getD_eq_getElem?_getD, List.getElem?_map,
    List.getElem?_eq_getElem h]
  rfl



def c3Window : List (ℚ × ℚ) := ((0 : ℚ), (1 : ℚ)) :: List.replicate 29 ((0 : ℚ), (0 : ℚ))

theorem storeTrack_index (st : StoreState) :
    st.maxAmplitudeIndex = (storeTrack st).maxAmplitudeIndex := rfl

/-- Claim C3 (amended): after 30 completed windows, the Reading Store's
`maxAmplitudeIndex` is nonzero PROVIDED at least one window with index 1 or
higher has a strictly positive peak-to-peak amplitude; without that proviso
the claim fails (see the flat-signal counterexample, where the index stays
at its initial value 0). -/
theorem maxAmplitudeIndex_ne_zero_of_positive_window (ws : List (List (ℚ × ℚ)))
    (_hn : ws.length = TOTAL_SECONDS) (hw : ∀ w ∈ ws, w.length = WINDOW_SIZE)
    (hpos : ∃ i, i < ws.length ∧ 1 ≤ i ∧ 0 < windowAmplitude (ws.getD i [])) :
    (runSamples (initAgg, initStore) ws.flatten).2.maxAmplitudeIndex ≠ 0 := by
  obtain ⟨i, hilen, hi1, hamp⟩ := hpos
  rw [runSamples_flatten ws initAgg initStore hw rfl]
  have htrack := processWindows_track ws initAgg initStore rfl rfl
  rw [storeTrack_index, htrack]
  refine trackRun_trigger (ws.map windowAmplitude) (storeTrack initStore) le_rfl (fun _ => rfl)
    ⟨i, ?_, ?_, ?_⟩
  · simpa using hilen
  · simp only [storeTrack, initStore]
    omega
  · rw [getD_map_windowAmplitude ws i hilen]
    exact hamp

/-- Witness for claim C3 at a concrete input: 30 identical windows whose
first sample's oscillometric value is 1 and the rest 0 (window amplitude 1
at every index, in particular at index 1). -/
theorem maxAmplitudeIndex_ne_zero_witness :
    (List.replicate 30 c3Window).length = TOTAL_SECONDS ∧
    (∀ w ∈ List.replicate 30 c3Window, w.length = WINDOW_SIZE) ∧
    (1 < (List.replicate 30 c3Window).length ∧ 1 ≤ 1 ∧
      0 < windowAmplitude ((List.replicate 30 c3Window).getD 1 [])) ∧
    (runSamples (initAgg, initStore)
        (List.replicate 30 c3Window).flatten).2.maxAmplitudeIndex ≠ 0 := by
  have h2 : ∀ w ∈ List.replicate 30 c3Window, w.length = WINDOW_SIZE := by
    intro w hw
    rw [List.eq_of_mem_replicate hw]
    rfl
  have h4 : 0 < windowAmplitude ((List.replicate 30 c3Window).getD 1 []) := by
    have : (List.replicate 30 c3Window).getD 1 [] = c3Window := by
      simp [List.getD_eq_getElem?_getD, List.getElem?_replicate]
    rw [this]
    norm_num [windowAmplitude, aggWindowAll, aggSample, initAgg, c3Window, List.replicate]
  exact ⟨rfl, h2, ⟨by norm_num, le_refl 1, h4⟩,
    maxAmplitudeIndex_ne_zero_of_positive_window (List.replicate 30 c3Window) rfl h2
      ⟨1, by norm_num, le_refl 1, h4⟩⟩

/-- Claim C3 counterexample: for the all-zero input sample sequence (30
completed windows of 30 samples each, every amplitude 0), the final
`maxAmplitudeIndex` IS 0, contradicting the claim that it is never 0 for
every possible input sample sequence. -/
theorem maxAmplitudeIndex_zero_on_flat_signal :
    (List.replicate 30 (List.replicate 30 ((0 : ℚ), (0 : ℚ)))).length = TOTAL_SECONDS ∧
    (∀ w ∈ List.replicate 30 (List.replicate 30 ((0 : ℚ), (0 : ℚ))), w.length = WINDOW_SIZE) ∧
    (runSamples (initAgg, initStore)
        (List.replicate 30 (List.replicate 30 ((0 : ℚ), (0 : ℚ)))).flatten).2.maxAmplitudeIndex
      = 0 := by
  refine ⟨rfl, ?_, ?_⟩
  · intro w hw
    rw [List.eq_of_mem_replicate hw]
    rfl
  · rw [runSamples_flatten _ initAgg initStore
      (fun w hw => by rw [List.eq_of_mem_replicate hw]; rfl) rfl]
    have htrack := processWindows_track (List.replicate 30 (List.replicate 30 ((0 : ℚ), (0 : ℚ))))
      initAgg initStore rfl rfl
    rw [storeTrack_index, htrack, List.map_replicate]
    have hwa : windowAmplitude (List.replicate 30 ((0 : ℚ), (0 : ℚ))) = 0 := by
      norm_num [windowAmplitude, aggWindowAll, aggSample, initAgg, List.replicate]
    have hst : storeTrack initStore = (⟨0, 0, 0⟩ : MaxTrack) := rfl
    rw [hwa, hst]
    norm_num [trackRun, trackStep, List.replicate]


theorem le_foldl_max : ∀ (l : List ℚ) (b : ℚ), b ≤ l.foldl max b := by
  intro l
  induction l with
  | nil => intro b; exact le_refl b
  | cons x xs ih => intro b; exact le_trans (le_max_left b x) (ih (max b x))

theorem foldl_min_le : ∀ (l : List ℚ) (b : ℚ), l.foldl min b ≤ b := by
  intro l
  induction l with
  | nil => intro b; exact le_refl b
  | cons x xs ih => intro b; exact le_trans (ih (min b x)) (min_le_left b x)

theorem aggWindowAll_max_spec : ∀ (w : List (ℚ × ℚ)) (a : AggState),
    (aggWindowAll a w).maxVal = (w.map Prod.snd).foldl max a.maxVal ∧
    (a.maxVal < (w.map Prod.snd).foldl max a.maxVal →
       (aggWindowAll a w).maxPressure
         = ((w.find? (fun s =>
             decide (s.2 = (w.map Prod.snd).foldl max a.maxVal))).getD (0, 0)).1) ∧
    (¬ a.maxVal < (w.map Prod.snd).foldl max a.maxVal →
       (aggWindowAll a w).maxPressure = a.maxPressure) := by
  intro w
  induction w with
  | nil =>
    intro a
    refine ⟨rfl, ?_, fun _ => rfl⟩
    intro h
    exact absurd h (lt_irrefl _)
  | cons x rest ih =>
    intro a
    have hA : (aggSample a x.1 x.2).maxVal = max a.maxVal x.2 := by
      rw [aggSample_maxVal]
      rcases lt_or_ge a.maxVal x.2 with h | h
      · rw [if_pos h, max_eq_right (le_of_lt h)]
      · rw [if_neg (not_lt.2 h), max_eq_left h]
    have hM : ((x :: rest).map Prod.snd).foldl max a.maxVal
        = (rest.map Prod.snd).foldl max (aggSample a x.1 x.2).maxVal := by
      rw [hA]
      simp [List.map_cons, List.foldl_cons]
    obtain ⟨ih1, ih2, ih3⟩ := ih (aggSample a x.1 x.2)
    have hfold : (aggWindowAll a (x :: rest)).maxVal
        = ((x :: rest).map Prod.snd).foldl max a.maxVal := by
      show (aggWindowAll (aggSample a x.1 x.2) rest).maxVal = _
      rw [ih1, hM]
    refine ⟨hfold, ?_, ?_⟩
    · intro ha
      show (aggWindowAll (aggSample a x.1 x.2) rest).maxPressure = _
      by_cases hx : a.maxVal < x.2
      · have hA2 : (aggSample a x.1 x.2).maxVal = x.2 := by
          rw [hA, max_eq_right (le_of_lt hx)]
        have hP : (aggSample a x.1 x.2).maxPressure = x.1 := by
          rw [aggSample_maxPressure, if_pos hx]
        by_cases hM2 : (aggSample a x.1 x.2).maxVal
            < (rest.map Prod.snd).foldl max (aggSample a x.1 x.2).maxVal
        · have hx2ne : ¬ (x.2 = ((x :: rest).map Prod.snd).foldl max a.maxVal) := by
            rw [hM, hA2]
            rw [hA2] at hM2
            exact ne_of_lt hM2
          rw [List.find?_cons]
          simp only [decide_eq_false hx2ne]
          rw [ih2 hM2, hM]
        · rw [ih3 hM2, hP]
          have hx2eq : x.2 = ((x :: rest).map Prod.snd).foldl max a.maxVal := by
            rw [hM]
            have h1 : (aggSample a x.1 x.2).maxVal
                ≤ (rest.map Prod.snd).foldl max (aggSample a x.1 x.2).maxVal :=
              le_foldl_max _ _
            have h2 := not_lt.1 hM2
            rw [hA2] at h1 h2 ⊢
            exact le_antisymm h1 h2
          rw [List.find?_cons]
          simp only [decide_eq_true hx2eq]
          rfl
      · have hA2 : (aggSample a x.1 x.2).maxVal = a.maxVal := by
          rw [hA, max_eq_left (not_lt.1 hx)]
        have hP : (aggSample a x.1 x.2).maxPressure = a.maxPressure := by
          rw [aggSample_maxPressure, if_neg hx]
        have ha2 : a.maxVal < (rest.map Prod.snd).foldl max a.maxVal := by
          rw [hM, hA2] at ha
          exact ha
        have hM2 : (aggSample a x.1 x.2).maxVal
            < (rest.map Prod.snd).foldl max (aggSample a x.1 x.2).maxVal := by
          rw [hA2]
          exact ha2
        have hx2ne : ¬ (x.2 = ((x :: rest).map Prod.snd).foldl max a.maxVal) := by
          rw [hM, hA2]
          intro hcontra
          rw [← hcontra] at ha2
          exact hx ha2
        rw [List.find?_cons]
        simp only [decide_eq_false hx2ne]
        rw [ih2 hM2, hM]
    · intro hna
      show (aggWindowAll (aggSample a x.1 x.2) rest).maxPressure = _
      have hle : ((x :: rest).map Prod.snd).foldl max a.maxVal ≤ a.maxVal := not_lt.1 hna
      have hup : max a.maxVal x.2 ≤ ((x :: rest).map Prod.snd).foldl max a.maxVal := by
        rw [hM, ← hA]
        exact le_foldl_max _ _
      have hx : ¬ a.maxVal < x.2 := by
        intro hcontra
        exact absurd (le_trans (le_max_right a.maxVal x.2) (le_trans hup hle))
          (not_le.2 hcontra)
      have hA2 : (aggSample a x.1 x.2).maxVal = a.maxVal := by
        rw [hA, max_eq_left (not_lt.1 hx)]
      have hP : (aggSample a x.1 x.2).maxPressure = a.maxPressure := by
        rw [aggSample_maxPressure, if_neg hx]
      have hfold2 : ((x :: rest).map Prod.snd).foldl max a.maxVal
          = (rest.map Prod.snd).foldl max a.maxVal := by
        rw [hM, hA2]
      have hM2 : ¬ (aggSample a x.1 x.2).maxVal
          < (rest.map Prod.snd).foldl max (aggSample a x.1 x.2).maxVal := by
        rw [hA2, ← hfold2]
        exact hna
      rw [ih3 hM2, hP]



theorem aggWindowAll_min_spec : ∀ (w : List (ℚ × ℚ)) (a : AggState),
    (aggWindowAll a w).minVal = (w.map Prod.snd).foldl min a.minVal ∧
    ((w.map Prod.snd).foldl min a.minVal < a.minVal →
       (aggWindowAll a w).minPressure
         = ((w.find? (fun s =>
             decide (s.2 = (w.map Prod.snd).foldl min a.minVal))).getD (0, 0)).1) ∧
    (¬ (w.map Prod.snd).foldl min a.minVal < a.minVal →
       (aggWindowAll a w).minPressure = a.minPressure) := by
  intro w
  induction w with
  | nil =>
    intro a
    refine ⟨rfl, ?_, fun _ => rfl⟩
    intro h
    exact absurd h (lt_irrefl _)
  | cons x rest ih =>
    intro a
    have hA : (aggSample a x.1 x.2).minVal = min a.minVal x.2 := by
      rw [aggSample_minVal]
      rcases lt_or_ge x.2 a.minVal with h | h
      · rw [if_pos h, min_eq_right (le_of_lt h)]
      · rw [if_neg (not_lt.2 h), min_eq_left h]
    have hM : ((x :: rest).map Prod.snd).foldl min a.minVal
        = (rest.map Prod.snd).foldl min (aggSample a x.1 x.2).minVal := by
      rw [hA]
      simp [List.map_cons, List.foldl_cons]
    obtain ⟨ih1, ih2, ih3⟩ := ih (aggSample a x.1 x.2)
    have hfold : (aggWindowAll a (x :: rest)).minVal
        = ((x :: rest).map Prod.snd).foldl min a.minVal := by
      show (aggWindowAll (aggSample a x.1 x.2) rest).minVal = _
      rw [ih1, hM]
    refine ⟨hfold, ?_, ?_⟩
    · intro ha
      show (aggWindowAll (aggSample a x.1 x.2) rest).minPressure = _
      by_cases hx : x.2 < a.minVal
      · have hA2 : (aggSample a x.1 x.2).minVal = x.2 := by
          rw [hA, min_eq_right (le_of_lt hx)]
        have hP : (aggSample a x.1 x.2).minPressure = x.1 := by
          rw [aggSample_minPressure, if_pos hx]
        by_cases hM2 : (rest.map Prod.snd).foldl min (aggSample a x.1 x.2).minVal
            < (aggSample a x.1 x.2).minVal
        · have hx2ne : ¬ (x.2 = ((x :: rest).map Prod.snd).foldl min a.minVal) := by
            rw [hM, hA2]
            rw [hA2] at hM2
            exact (ne_of_lt hM2).symm
          rw [List.find?_cons]
          simp only [decide_eq_false hx2ne]
          rw [ih2 hM2, hM]
        · rw [ih3 hM2, hP]
          have hx2eq : x.2 = ((x :: rest).map Prod.snd).foldl min a.minVal := by
            rw [hM]
            have h1 : (rest.map Prod.snd).foldl min (aggSample a x.1 x.2).minVal
                ≤ (aggSample a x.1 x.2).minVal := foldl_min_le _ _
            have h2 := not_lt.1 hM2
            rw [hA2] at h1 h2 ⊢
            exact le_antisymm h2 h1
          rw [List.find?_cons]
          simp only [decide_eq_true hx2eq]
          rfl
      · have hA2 : (aggSample a x.1 x.2).minVal = a.minVal := by
          rw [hA, min_eq_left (not_lt.1 hx)]
        have hP : (aggSample a x.1 x.2).minPressure = a.minPressure := by
          rw [aggSample_minPressure, if_neg hx]
        have ha2 : (rest.map Prod.snd).foldl min a.minVal < a.minVal := by
          rw [hM, hA2] at ha
          exact ha
        have hM2 : (rest.map Prod.snd).foldl min (aggSample a x.1 x.2).minVal
            < (aggSample a x.1 x.2).minVal := by
          rw [hA2]
          exact ha2
        have hx2ne : ¬ (x.2 = ((x :: rest).map Prod.snd).foldl min a.minVal) := by
          rw [hM, hA2]
          intro hcontra
          rw [← hcontra] at ha2
          exact hx ha2
        rw [List.find?_cons]
        simp only [decide_eq_false hx2ne]
        rw [ih2 hM2, hM]
    · intro hna
      show (aggWindowAll (aggSample a x.1 x.2) rest).minPressure = _
      have hle : a.minVal ≤ ((x :: rest).map Prod.snd).foldl min a.minVal := not_lt.1 hna
      have hup : ((x :: rest).map Prod.snd).foldl min a.minVal ≤ min a.minVal x.2 := by
        rw [hM, ← hA]
        exact foldl_min_le _ _
      have hx : ¬ x.2 < a.minVal := by
        intro hcontra
        exact absurd (le_trans hle (le_trans hup (min_le_right _ _))) (not_le.2 hcontra)
      have hA2 : (aggSample a x.1 x.2).minVal = a.minVal := by
        rw [hA, min_eq_left (not_lt.1 hx)]
      have hP : (aggSample a x.1 x.2).minPressure = a.minPressure := by
        rw [aggSample_minPressure, if_neg hx]
      have hfold2 : ((x :: rest).map Prod.snd).foldl min a.minVal
          = (rest.map Prod.snd).foldl min a.minVal := by
        rw [hM, hA2]
      have hM2 : ¬ (rest.map Prod.snd).foldl min (aggSample a x.1 x.2).minVal
          < (aggSample a x.1 x.2).minVal := by
        rw [hA2, ← hfold2]
        exact hna
      rw [ih3 hM2, hP]



theorem appendReading_secondCounter (st : StoreState) (r : BPReading) :
    (appendReading st r).secondCounter = st.secondCounter + 1 := by
  show (trackStep ⟨st.maxAmplitude, st.maxAmplitudeIndex, st.secondCounter⟩ r.amplitude).secondCounter
      = st.secondCounter + 1
  rw [trackStep_secondCounter]

theorem fold_max_eq_windowOscMax (w : List (ℚ × ℚ)) (a : AggState)
    (hmax : a.maxVal = -999) (hw : ∀ s ∈ w, -999 < s.2) (hne : w ≠ []) :
    (w.map Prod.snd).foldl max a.maxVal = windowOscMax w := by
  rcases w with _ | ⟨x, xs⟩
  · exact absurd rfl hne
  · simp only [windowOscMax, List.map_cons, List.foldl_cons, hmax]
    rw [max_eq_right (le_of_lt (hw x (List.mem_cons_self x xs)))]

theorem fold_min_eq_windowOscMin (w : List (ℚ × ℚ)) (a : AggState)
    (hmin : a.minVal = 999) (hw : ∀ s ∈ w, s.2 < 999) (hne : w ≠ []) :
    (w.map Prod.snd).foldl min a.minVal = windowOscMin w := by
  rcases w with _ | ⟨x, xs⟩
  · exact absurd rfl hne
  · simp only [windowOscMin, List.map_cons, List.foldl_cons, hmin]
    rw [min_eq_right (le_of_lt (hw x (List.mem_cons_self x xs)))]

/-- Claim C5 (amended): when a window's 30th sample arrives, the aggregator
emits exactly one Reading whose amplitude is the difference of the window's
true oscillometric extremes and whose pressure is the midpoint of the
pressures observed at those extremes (their first occurrences), provided
every oscillometric sample lies strictly inside the sentinel range
(-999, 999); the result does not depend on the stale `maxPressure` and
`minPressure` left over from the previous window, and the accumulator is
then reset to `maxVal = -999`, `minVal = 999`, count 0 (the source's
sentinels, not the claimed unbounded -inf/+inf). -/
theorem window_emission_spec (w : List (ℚ × ℚ)) (a : AggState) (st : StoreState)
    (hmax : a.maxVal = -999) (hmin : a.minVal = 999) (hbi : a.bufferIndex = 0)
    (hlen : w.length = WINDOW_SIZE) (hrange : ∀ s ∈ w, -999 < s.2 ∧ s.2 < 999) :
    runSamples (a, st) w
      = (resetAgg (aggWindowAll a w),
         appendReading st
           ⟨windowOscMax w - windowOscMin w,
            (pressureAtOscMax w + pressureAtOscMin w) / 2⟩) ∧
    (runSamples (a, st) w).1.maxVal = -999 ∧
    (runSamples (a, st) w).1.minVal = 999 ∧
    (runSamples (a, st) w).1.bufferIndex = 0 ∧
    (runSamples (a, st) w).2.readings
      = st.readings ++ [⟨windowOscMax w - windowOscMin w,
          (pressureAtOscMax w + pressureAtOscMin w) / 2⟩] ∧
    (runSamples (a, st) w).2.secondCounter = st.secondCounter + 1 := by
  have hw0 : 0 < w.length := by
    rw [hlen]
    norm_num [WINDOW_SIZE]
  have hne : w ≠ [] := List.length_pos.1 hw0
  have hup : ∀ s ∈ w, -999 < s.2 := fun s hs => (hrange s hs).1
  have hdn : ∀ s ∈ w, s.2 < 999 := fun s hs => (hrange s hs).2
  have hwin := runSamples_window w a st hw0 (by rw [hbi, hlen]; exact Nat.zero_add _)
  have hfmax := fold_max_eq_windowOscMax w a hmax hup hne
  have hfmin := fold_min_eq_windowOscMin w a hmin hdn hne
  have hgt : a.maxVal < (w.map Prod.snd).foldl max a.maxVal := by
    rw [hfmax, hmax]
    rcases w with _ | ⟨x, xs⟩
    · exact absurd rfl hne
    · exact lt_of_lt_of_le (hup x (List.mem_cons_self x xs))
        (by simp only [windowOscMax]; exact le_foldl_max _ _)
  have hlt : (w.map Prod.snd).foldl min a.minVal < a.minVal := by
    rw [hfmin, hmin]
    rcases w with _ | ⟨x, xs⟩
    · exact absurd rfl hne
    · exact lt_of_le_of_lt
        (by simp only [windowOscMin]; exact foldl_min_le _ _)
        (hdn x (List.mem_cons_self x xs))
  obtain ⟨hmv, hmp, _⟩ := aggWindowAll_max_spec w a
  obtain ⟨hnv, hnp, _⟩ := aggWindowAll_min_spec w a
  have hmp2 := hmp hgt
  have hnp2 := hnp hlt
  rw [hfmax] at hmv hmp2
  rw [hfmin] at hnv hnp2
  have hre : emitReading (aggWindowAll a w)
      = ⟨windowOscMax w - windowOscMin w,
         (pressureAtOscMax w + pressureAtOscMin w) / 2⟩ := by
    unfold emitReading
    rw [hmv, hnv, hmp2, hnp2]
    rfl
  rw [hwin, hre]
  refine ⟨rfl, rfl, rfl, rfl, rfl, ?_⟩
  exact appendReading_secondCounter st _

theorem window_emission_spec_witness :
    (∀ s ∈ List.replicate 30 ((1 : ℚ), (0 : ℚ)), -999 < s.2 ∧ s.2 < 999) ∧
    (runSamples ((⟨-999, 999, 42, 17, 0⟩ : AggState), initStore)
        (List.replicate 30 ((1 : ℚ), (0 : ℚ)))).2.readings
      = initStore.readings ++ [⟨windowOscMax (List.replicate 30 ((1 : ℚ), (0 : ℚ)))
          - windowOscMin (List.replicate 30 ((1 : ℚ), (0 : ℚ))),
          (pressureAtOscMax (List.replicate 30 ((1 : ℚ), (0 : ℚ)))
            + pressureAtOscMin (List.replicate 30 ((1 : ℚ), (0 : ℚ)))) / 2⟩] ∧
    (runSamples ((⟨-999, 999, 42, 17, 0⟩ : AggState), initStore)
        (List.replicate 30 ((1 : ℚ), (0 : ℚ)))).1.maxVal = -999 := by
  have hr : ∀ s ∈ List.replicate 30 ((1 : ℚ), (0 : ℚ)), -999 < s.2 ∧ s.2 < 999 := by
    intro s hs
    rw [List.eq_of_mem_replicate hs]
    norm_num
  have h := window_emission_spec (List.replicate 30 ((1 : ℚ), (0 : ℚ)))
    ⟨-999, 999, 42, 17, 0⟩ initStore rfl rfl rfl rfl hr
  exact ⟨hr, h.2.2.2.2.1, h.2.1⟩

/-- Claim C5 counterexample: a window whose oscillometric samples all equal
-1000 (below the -999 sentinel the accumulator is reset to, instead of the
claimed negative infinity) is emitted with amplitude 1, although the
difference of the window's true extremes is 0; and after the reset a sample
of -1000 is not captured as the running maximum. -/
theorem window_reset_sentinel_counterexample :
    (runSamples (initAgg, initStore)
        (List.replicate 30 ((0 : ℚ), (-1000 : ℚ)))).2.readings = [⟨1, 0⟩] ∧
    windowOscMax (List.replicate 30 ((0 : ℚ), (-1000 : ℚ)))
      - windowOscMin (List.replicate 30 ((0 : ℚ), (-1000 : ℚ))) = 0 ∧
    ((1 : ℚ) ≠ 0) ∧
    (aggSample (resetAgg (aggWindowAll initAgg (List.replicate 30 ((0 : ℚ), (-1000 : ℚ)))))
        0 (-1000)).maxVal = -999 := by
  have hA : aggWindowAll initAgg (List.replicate 30 ((0 : ℚ), (-1000 : ℚ)))
      = ⟨-999, -1000, 0, 0, 30⟩ := by
    norm_num [aggWindowAll, aggSample, initAgg, List.replicate]
  have hwin := runSamples_window (List.replicate 30 ((0 : ℚ), (-1000 : ℚ)))
    initAgg initStore (by norm_num) (by norm_num [initAgg, WINDOW_SIZE])
  refine ⟨?_, ?_, by norm_num, ?_⟩
  · rw [hwin, hA]
    show initStore.readings ++ [emitReading ⟨-999, -1000, 0, 0, 30⟩] = [⟨1, 0⟩]
    norm_num [initStore, emitReading]
  · norm_num [windowOscMax, windowOscMin, List.replicate]
  · rw [hA]
    norm_num [aggSample, resetAgg]


/-- Claim C7: from the `PROCESSING_SIGNAL` (Sampling) state the machine
moves to `COMPLETE` (Done) exactly when the Reading Store reaches 30
readings, and that transition increments the `calculateBloodPressure`
invocation count by exactly one; once in `COMPLETE`, a further `loop()`
call records no sample, appends no reading, leaves the buffers, the peak
state, the results and the invocation count unchanged, and stays in
`COMPLETE`. -/
theorem sampling_to_complete_transition (s : MonitorState) (inp : LoopInput) :
    (s.currentState = State.PROCESSING_SIGNAL → s.store.secondCounter < TOTAL_SECONDS →
      (((loopStep s inp).currentState = State.COMPLETE ↔
          (loopStep s inp).store.secondCounter = TOTAL_SECONDS) ∧
       (loopStep s inp).bpCalcCount
         = s.bpCalcCount + (if (loopStep s inp).currentState = State.COMPLETE then 1 else 0))) ∧
    (s.currentState = State.COMPLETE →
      ((loopStep s inp).currentState = State.COMPLETE ∧
       (loopStep s inp).store = s.store ∧
       (loopStep s inp).agg = s.agg ∧
       (loopStep s inp).peak = s.peak ∧
       (loopStep s inp).pressureBuffer = s.pressureBuffer ∧
       (loopStep s inp).oscillometricBuffer = s.oscillometricBuffer ∧
       (loopStep s inp).bpCalcCount = s.bpCalcCount ∧
       (loopStep s inp).bpResults = s.bpResults)) := by
  constructor
  · intro hs hc
    simp only [loopStep, hs]
    split
    · rename_i helapsed
      split
      · rename_i hwde
        split
        · rename_i hts
          rw [appendReading_secondCounter] at hts
          simp only [TOTAL_SECONDS] at hts hc ⊢
          constructor
          · simp only [appendReading_secondCounter]
            constructor
            · intro _
              omega
            · intro _
              trivial
          · simp
        · rename_i hts
          rw [appendReading_secondCounter] at hts
          simp only [TOTAL_SECONDS] at hts hc ⊢
          constructor
          · simp only [appendReading_secondCounter]
            constructor
            · intro hcontra
              exact absurd hcontra (by simp)
            · intro hcontra
              exact absurd hcontra (by omega)
          · simp
      · simp only [TOTAL_SECONDS] at hc ⊢
        constructor
        · constructor
          · intro hcontra
            exact absurd hcontra (by simp)
          · intro hcontra
            exact absurd hcontra (by omega)
        · simp
    · simp only [TOTAL_SECONDS] at hc ⊢
      constructor
      · constructor
        · intro hcontra
          exact absurd hcontra (by simp)
        · intro hcontra
          exact absurd hcontra (by omega)
      · simp
  · intro hs
    simp [loopStep, hs]



def c7Input : LoopInput := ⟨false, 0, 0, 0, 100⟩

def c7State : MonitorState :=
  { initMonitor with
    currentState := State.PROCESSING_SIGNAL
    store := { readings := List.replicate 29 ⟨0, 0⟩, maxAmplitude := 0,
               maxAmplitudeIndex := 0, secondCounter := 29 }
    agg := { initAgg with bufferIndex := 29 } }

def c7CompleteState : MonitorState :=
  { initMonitor with currentState := State.COMPLETE }

/-- Witness for claim C7: a concrete `PROCESSING_SIGNAL` state holding 29
readings with a full sample buffer, and a concrete `COMPLETE` state. -/
theorem sampling_to_complete_witness :
    (((loopStep c7State c7Input).currentState = State.COMPLETE ↔
        (loopStep c7State c7Input).store.secondCounter = TOTAL_SECONDS) ∧
      (loopStep c7State c7Input).bpCalcCount
        = c7State.bpCalcCount
          + (if (loopStep c7State c7Input).currentState = State.COMPLETE then 1 else 0)) ∧
    ((loopStep c7CompleteState c7Input).currentState = State.COMPLETE ∧
     (loopStep c7CompleteState c7Input).store = c7CompleteState.store ∧
     (loopStep c7CompleteState c7Input).agg = c7CompleteState.agg ∧
     (loopStep c7CompleteState c7Input).peak = c7CompleteState.peak ∧
     (loopStep c7CompleteState c7Input).pressureBuffer = c7CompleteState.pressureBuffer ∧
     (loopStep c7CompleteState c7Input).oscillometricBuffer = c7CompleteState.oscillometricBuffer ∧
     (loopStep c7CompleteState c7Input).bpCalcCount = c7CompleteState.bpCalcCount ∧
     (loopStep c7CompleteState c7Input).bpResults = c7CompleteState.bpResults) :=
  ⟨(sampling_to_complete_transition c7State c7Input).1 rfl (by norm_num [c7State, TOTAL_SECONDS]),
   (sampling_to_complete_transition c7CompleteState c7Input).2 rfl⟩

end BPCuff
